import Mathlib

/-
Verification of the Real_CLIP_Adapter training-pipeline code.

Shallow embedding of the loss functions, dataset tokenization helpers and
the distributed gather layer found in:
  - src/weighted_loss/allmodel.py
  - src/LM/LMmodel.py
  - src/Vision/masked_modeling.py

Machine floating point is modelled over the reals; the pretrained CLIP
networks (vision encoder, text encoder, decoders) are external library
components and appear as abstract function parameters.  Randomness
(the image mask generator, the token-mask coin flips) is passed in
explicitly.
-/

open scoped BigOperators

/-! ## Cross entropies, as computed by torch -/

/-- Semantics of torch.nn.functional.cross_entropy with class-index targets
and the default mean reduction: the mean over rows of
(log-sum-exp of the row of logits minus the logit at the target index). -/
noncomputable def cross_entropy {n m : ℕ} (logits : Fin n → Fin m → ℝ) (target : Fin n → Fin m) : ℝ :=
  (∑ i, (Real.log (∑ j, Real.exp (logits i j)) - logits i (target i))) / n

/-- Semantics of torch.nn.CrossEntropyLoss() with its default
ignore_index = -100 and mean reduction over the non-ignored positions:
positions whose integer label is -100 enter neither the sum nor the count.
The label of a non-ignored position selects the logit at that index. -/
noncomputable def cross_entropy_ignore {ι : Type} [Fintype ι] {V : ℕ}
    (logits : ι → Fin V → ℝ) (labels : ι → ℤ) : ℝ :=
  (∑ i ∈ Finset.univ.filter (fun i => labels i ≠ -100),
      (Real.log (∑ j, Real.exp (logits i j)) - ∑ j, if (j.val : ℤ) = labels i then logits i j else 0))
    / (Finset.univ.filter (fun i => labels i ≠ -100)).card

/-! ## src/LM/LMmodel.py : contrastive losses -/

/-- LMmodel.py contrastive_loss: cross entropy of the logits against
torch.arange(len(logits)), i.e. row i's target is class i. -/
noncomputable def contrastive_loss {n : ℕ} (logits : Fin n → Fin n → ℝ) : ℝ :=
  cross_entropy logits (fun i => i)

/-- LMmodel.py clip_loss: the mean of the caption-direction contrastive
loss on the similarity matrix and the image-direction contrastive loss
on its transpose. -/
noncomputable def clip_loss {n : ℕ} (similarity : Fin n → Fin n → ℝ) : ℝ :=
  (contrastive_loss similarity + contrastive_loss (fun i j => similarity j i)) / 2

/-- LMmodel.py CLIPTextOnly.forward, with the two runs of the external
pretrained text model, the projection and the L2 normalization abstracted
into its inputs text_embeds0 / text_embeds1, and logit_scale already
exponentiated.  Returns the loss and logits_per_text (the argmax
prediction row, a derived convenience output, is not modelled). -/
noncomputable def CLIPTextOnly.forward {n d : ℕ} (text_embeds0 text_embeds1 : Fin n → Fin d → ℝ)
    (logit_scale : ℝ) : ℝ × (Fin n → Fin n → ℝ) :=
  let logits_per_text : Fin n → Fin n → ℝ :=
    fun i j => (∑ k, text_embeds0 i k * text_embeds1 j k) * logit_scale
  (clip_loss logits_per_text, logits_per_text)

/-! ## src/weighted_loss/allmodel.py : GatherLayer and gather_features -/

/-- Semantics of torch.distributed.all_gather into a world_size-long list:
every worker receives the list of all workers' tensors, in rank order.
GatherLayer.forward returns this list (the tuple of gathered tensors). -/
def GatherLayer.forward {W : ℕ} {T : Type} (x : Fin W → T) : List T :=
  (List.finRange W).map x

/-- Semantics of torch.distributed.all_reduce with the default SUM op:
every worker receives the elementwise sum of all workers' tensors. -/
def all_reduce {W : ℕ} {T : Type} [AddCommMonoid T] (xs : Fin W → T) : T :=
  ∑ w, xs w

/-- GatherLayer.backward on the worker of the given rank: grads w i is the
incoming gradient that worker w holds for the i-th gathered output.  Each
worker stacks its incoming gradients, the stacks are all-reduced (summed
across workers), and the slice at the worker's own rank is returned. -/
def GatherLayer.backward {W : ℕ} {ι : Type} (rank : Fin W)
    (grads : Fin W → Fin W → ι → ℝ) : ι → ℝ :=
  let all_gradients := all_reduce grads
  all_gradients rank

/-- allmodel.py gather_features: apply GatherLayer to the image and text
features (tensors modelled as lists of rows) and concatenate each gathered
tuple along the batch dimension. -/
def gather_features {W : ℕ} {R : Type} (image_features text_features : Fin W → List R) :
    List R × List R :=
  let gathered_image_features := GatherLayer.forward image_features
  let gathered_text_features := GatherLayer.forward text_features
  (gathered_image_features.flatten, gathered_text_features.flatten)

/-! ## src/weighted_loss/allmodel.py : ClipLoss -/

/-- allmodel.py ClipLoss.forward in the world_size = 1 branch (the
configuration built by CLIPWeightedLOSS, whose ClipLoss() keeps the
defaults world_size = 1, rank = 0, cache_labels = False): both logit
matrices are the scaled feature inner products, the labels are
torch.arange(num_logits), and the total loss is the mean of the two
cross entropies.  Returns (total_loss, logits_per_image, logits_per_text). -/
noncomputable def ClipLoss.forward {n d : ℕ} (image_features text_features : Fin n → Fin d → ℝ)
    (logit_scale : ℝ) : ℝ × (Fin n → Fin n → ℝ) × (Fin n → Fin n → ℝ) :=
  let logits_per_image : Fin n → Fin n → ℝ :=
    fun i j => logit_scale * ∑ k, image_features i k * text_features j k
  let logits_per_text : Fin n → Fin n → ℝ :=
    fun i j => logit_scale * ∑ k, text_features i k * image_features j k
  let labels : Fin n → Fin n := fun i => i
  ((cross_entropy logits_per_image labels + cross_entropy logits_per_text labels) / 2,
   logits_per_image, logits_per_text)

/-! ## Masked-patch reconstruction loss (src/Vision/masked_modeling.py and allmodel.py) -/

/-- mask.repeat_interleave(16, 1).repeat_interleave(16, 2) for a batch of
14 x 14 patch masks: each mask entry is repeated 16 times along each
spatial axis, giving a 224 x 224 pixel mask (pixel (i, j) reads patch
(i / 16, j / 16)). -/
def upsample_mask {B : ℕ} (mask : Fin B → Fin 14 → Fin 14 → ℝ) :
    Fin B → Fin 224 → Fin 224 → ℝ :=
  fun b i j =>
    mask b ⟨i.val / 16, by have h := i.isLt; omega⟩ ⟨j.val / 16, by have h := j.isLt; omega⟩

/-- The masked-patch reconstruction loss computed identically in the
masked_modeling training loop (src/Vision/masked_modeling.py, whose
model_patch_size argument is 16 at its call site) and in
CLIPWeightedLOSS.forward (src/weighted_loss/allmodel.py): the elementwise
L1 difference between image and reconstruction, weighted by the upsampled
mask (broadcast over the 3 channels), summed, divided by the upsampled
mask's sum plus 1e-5, then divided by 3.  The upsampled mask carries a
singleton channel axis (unsqueeze(1)) in the source, so its sum counts
each pixel once, not once per channel. -/
noncomputable def recon_loss {B : ℕ}
    (pixel_values x_rec : Fin B → Fin 3 → Fin 224 → Fin 224 → ℝ)
    (mask : Fin B → Fin 14 → Fin 14 → ℝ) : ℝ :=
  let m := upsample_mask mask
  (∑ b, ∑ c, ∑ i, ∑ j, |pixel_values b c i j - x_rec b c i j| * m b i j)
    / ((∑ b, ∑ i, ∑ j, m b i j) + 1 / 100000) / 3

/-! ## src/weighted_loss/allmodel.py : CLIPVisionMasked -/

/-- allmodel.py CLIPVisionMasked.forward_masked: raises ValueError when the
mask is None, before running the model; otherwise runs the masked vision
encoding (the pretrained CLIP vision tower with mask-token substitution,
abstracted here into the model parameter) and returns its pair
(img_emb, pooled_output). -/
def CLIPVisionMasked.forward_masked {P M E₁ E₂ : Type} (model : P → M → E₁ × E₂)
    (pixel_values : P) (mask : Option M) : Except String (E₁ × E₂) :=
  match mask with
  | none => Except.error "The mask is None"
  | some m => Except.ok (model pixel_values m)

/-- allmodel.py CLIPVisionMasked.forward: calls forward_masked and returns
only the masked image embedding (the first component). -/
def CLIPVisionMasked.forward {P M E₁ E₂ : Type} (model : P → M → E₁ × E₂)
    (pixel_values : P) (mask : Option M) : Except String E₁ :=
  (CLIPVisionMasked.forward_masked model pixel_values mask).map Prod.fst

/-! ## src/weighted_loss/allmodel.py : CLIPWeightedLOSS -/

/-- allmodel.py torch.where(masked_ids == 49408, input_ids, -100):
the mlm target is the original token wherever the masked token is the
mask token id 49408, and the ignore value -100 everywhere else. -/
def mlm_labels {B S : ℕ} (masked_ids input_ids : Fin B → Fin S → Fin 49409) :
    Fin B → Fin S → ℤ :=
  fun b s => if (masked_ids b s).val = 49408 then ((input_ids b s).val : ℤ) else -100

/-- The pair of outputs of the pretrained text tower self.cliptext
(an external library component): the projected pooled embedding and the
last hidden state (hidden size 512 for clip-vit-base-patch16). -/
structure TextOutput (B S d : ℕ) where
  text_embeds : Fin B → Fin d → ℝ
  last_hidden_state : Fin B → Fin S → Fin 512 → ℝ

/-- allmodel.py CLIPOutput.output: the dictionary of results returned by
CLIPWeightedLOSS.forward.  The mask field holds the upsampled pixel mask
(its singleton channel axis dropped). -/
structure CLIPOutput (B S d : ℕ) where
  loss_recon : ℝ
  loss_mlm : ℝ
  clip_loss : ℝ
  loss : ℝ
  text_embeds : Fin B → Fin d → ℝ
  image_embeds : Fin B → Fin d → ℝ
  mask : Fin B → Fin 224 → Fin 224 → ℝ

/-- allmodel.py CLIPWeightedLOSS.forward.  The externally supplied trained
components are abstracted into function parameters:
encoder_decoder is self.decoder composed with self.encoder (the masked
vision tower and the PixelShuffle reconstruction head), cliptext is the
pretrained text tower, clipvision_image_embeds is self.encoder.clipvision
producing projected image embeddings, textdecoder is self.textdecoder
mapping hidden states to vocabulary logits, logit_scale is
self.logit_scale, and mask is the batch of random patch masks drawn from
self.mask_generator (input size 224, model patch size 16).  A None
masked_ids defaults to input_ids.clone(). -/
noncomputable def CLIPWeightedLOSS.forward {B S d : ℕ}
    (encoder_decoder : (Fin B → Fin 3 → Fin 224 → Fin 224 → ℝ) →
       (Fin B → Fin 14 → Fin 14 → ℝ) → (Fin B → Fin 3 → Fin 224 → Fin 224 → ℝ))
    (cliptext : (Fin B → Fin S → Fin 49409) → (Fin B → Fin S → ℕ) → TextOutput B S d)
    (clipvision_image_embeds : (Fin B → Fin 3 → Fin 224 → Fin 224 → ℝ) → Fin B → Fin d → ℝ)
    (textdecoder : (Fin B → Fin S → Fin 512 → ℝ) → Fin B → Fin S → Fin 49409 → ℝ)
    (logit_scale : ℝ)
    (mask : Fin B → Fin 14 → Fin 14 → ℝ)
    (input_ids : Fin B → Fin S → Fin 49409)
    (pixel_values : Fin B → Fin 3 → Fin 224 → Fin 224 → ℝ)
    (attention_mask : Fin B → Fin S → ℕ)
    (masked_ids : Option (Fin B → Fin S → Fin 49409)) : CLIPOutput B S d :=
  let masked := masked_ids.getD input_ids
  let x_rec := encoder_decoder pixel_values mask
  let text_outputs := cliptext input_ids attention_mask
  let image_embeds := clipvision_image_embeds pixel_values
  let text_embeds := text_outputs.text_embeds
  let clip_loss_value := (ClipLoss.forward image_embeds text_embeds logit_scale).1
  let loss_recon := recon_loss pixel_values x_rec mask
  let mask_outputs := cliptext masked attention_mask
  let mask_logits := textdecoder mask_outputs.last_hidden_state
  let labels := mlm_labels masked input_ids
  let loss_mlm := cross_entropy_ignore (fun p : Fin B × Fin S => mask_logits p.1 p.2)
    (fun p : Fin B × Fin S => labels p.1 p.2)
  let loss := clip_loss_value + loss_mlm
  ⟨loss_recon, loss_mlm, clip_loss_value, loss, text_embeds, image_embeds, upsample_mask mask⟩

/-! ## src/LM/LMmodel.py : FlickrDataset -/

namespace FlickrDataset

/-- self.bos_token_id in FlickrDataset.__init__. -/
def bos_token_id : ℕ := 49406

/-- self.eos_token_id in FlickrDataset.__init__. -/
def eos_token_id : ℕ := 49407

/-- self.pad_token_id in FlickrDataset.__init__. -/
def pad_token_id : ℕ := 1

/-- LMmodel.py FlickrDataset.get_index_files: one jsonl index file name per
split, RuntimeError on any other split string. -/
def get_index_files (split task : String) : Except String (List String) :=
  if split = "train" then Except.ok [task ++ ".train.jsonl"]
  else if split = "val" then Except.ok [task ++ ".val.jsonl"]
  else if split = "test" then Except.ok [task ++ ".test.jsonl"]
  else Except.error ("split " ++ split ++ " is not found!")

/-- LMmodel.py FlickrDataset._get_text_segment on an already tokenized
segment (the non-string branch takes a copy of the token list; the string
branch differs only in obtaining the tokens from the external tokenizer).
Raises RuntimeError on an empty segment; otherwise truncates to
max_len - 2 tokens, wraps them in bos/eos, and pads tokens and mask out to
max_len (pad value 1 for tokens, mask 0 on real tokens and 1 on padding).
Returns (padded tokens, padding_mask, num_tokens). -/
def get_text_segment (text_segment : List ℕ) (max_len : ℕ) :
    Except String (List ℕ × List ℕ × ℕ) :=
  let tokens := text_segment
  if tokens.length = 0 then
    Except.error "The text segment should contains at least one tokens!"
  else
    let tokens := if tokens.length > max_len - 2 then tokens.take (max_len - 2) else tokens
    let tokens := [bos_token_id] ++ tokens ++ [eos_token_id]
    let num_tokens := tokens.length
    let padding_mask := List.replicate num_tokens 0 ++ List.replicate (max_len - num_tokens) 1
    Except.ok (tokens ++ List.replicate (max_len - num_tokens) 1, padding_mask, num_tokens)

end FlickrDataset

/-! ## src/LM/LMmodel.py : CLIPMaskDataset -/

namespace CLIPMaskDataset

/-- self.bos_token_id in CLIPMaskDataset.__init__. -/
def bos_token_id : ℕ := 49406

/-- self.eos_token_id in CLIPMaskDataset.__init__. -/
def eos_token_id : ℕ := 49407

/-- self.mask_token_id in CLIPMaskDataset.__init__. -/
def mask_token_id : ℕ := 49408

/-- The in-place masking loop of CLIPMaskDataset._get_text_segment:
iterate over the tokens; skip a bos token; stop at the first eos token,
leaving the rest untouched; otherwise replace the token by the mask token
when the random draw fires.  coins k models the outcome of the draw
random.random() < 0.15 at position k. -/
def maskLoop (coins : ℕ → Bool) : ℕ → List ℕ → List ℕ
  | _, [] => []
  | k, t :: rest =>
    if t = bos_token_id then t :: maskLoop coins (k + 1) rest
    else if t = eos_token_id then t :: rest
    else (if coins k then mask_token_id else t) :: maskLoop coins (k + 1) rest

/-- LMmodel.py CLIPMaskDataset._get_text_segment, with the external
tokenizer's output passed in as the token list and the random masking
draws passed in as coins.  Raises RuntimeError on an empty token list;
otherwise truncates to max_len - 1 tokens, pads with eos tokens out to
max_len, builds the attention mask (1 on real tokens, 0 on padding), and
masks tokens randomly.  Returns (full_tokens, masked_tokens,
attention_mask). -/
def get_text_segment (tokens : List ℕ) (coins : ℕ → Bool) (max_len : ℕ) :
    Except String (List ℕ × List ℕ × List ℕ) :=
  if tokens.length = 0 then
    Except.error "The text segment should contains at least one tokens!"
  else
    let tokens := if tokens.length > max_len - 1 then tokens.take (max_len - 1) else tokens
    let num_tokens := tokens.length
    let attention_mask := List.replicate num_tokens 1 ++ List.replicate (max_len - num_tokens) 0
    let full_tokens := tokens ++ List.replicate (max_len - num_tokens) eos_token_id
    let masked_tokens := maskLoop coins 0 full_tokens
    Except.ok (full_tokens, masked_tokens, attention_mask)

end CLIPMaskDataset

/-! ## Claim theorems -/

/-- C2: GatherLayer.forward returns the world_size-long tuple of every
worker's tensor obtained by all-gathering (entry i is worker i's x);
GatherLayer.backward stacks the incoming per-output gradients, all-reduces
(sums) them across workers and returns the slice at the calling worker's
rank, i.e. the sum over all workers w of the gradient worker w holds for
this worker's output; and gather_features concatenates each gathered
tuple, so the gathered features carry gradients back to every worker. -/
theorem gatherLayer_preserves_gradients {W : ℕ} {T ι R : Type} [Fintype ι]
    (x : Fin W → T) (rank : Fin W) (grads : Fin W → Fin W → ι → ℝ)
    (image_features text_features : Fin W → List R) :
    (GatherLayer.forward x).length = W
    ∧ (∀ i : Fin W, (GatherLayer.forward x)[i.val]? = some (x i))
    ∧ (∀ k : ι, GatherLayer.backward rank grads k = ∑ w, grads w rank k)
    ∧ (gather_features image_features text_features).1
        = (GatherLayer.forward image_features).flatten
    ∧ (gather_features image_features text_features).2
        = (GatherLayer.forward text_features).flatten := by
  refine ⟨by simp [GatherLayer.forward], fun i => ?_, fun k => ?_, rfl, rfl⟩
  · simp [GatherLayer.forward]
  · simp [GatherLayer.backward, all_reduce]

/-- C3: with world_size = 1, ClipLoss.forward's total loss is the mean of
the cross entropies of logits_per_image and logits_per_text against the
labels 0..n-1 (the diagonal positives), and it coincides with LMmodel.py's
clip_loss applied to the scaled image-text similarity matrix. -/
theorem clipLoss_forward_total_loss {n d : ℕ}
    (image_features text_features : Fin n → Fin d → ℝ) (logit_scale : ℝ) :
    (ClipLoss.forward image_features text_features logit_scale).1 =
      (cross_entropy (fun i j => logit_scale * ∑ k, image_features i k * text_features j k)
          (fun i => i)
        + cross_entropy (fun i j => logit_scale * ∑ k, text_features i k * image_features j k)
          (fun i => i)) / 2
    ∧ (ClipLoss.forward image_features text_features logit_scale).1 =
      clip_loss (fun i j => logit_scale * ∑ k, image_features i k * text_features j k) := by
  constructor
  · rfl
  · have h : (fun (i j : Fin n) => logit_scale * ∑ k, text_features i k * image_features j k)
        = (fun (i j : Fin n) => logit_scale * ∑ k, image_features j k * text_features i k) := by
      funext i j
      exact congrArg _ (Finset.sum_congr rfl fun k _ => mul_comm _ _)
    simp only [ClipLoss.forward, clip_loss, contrastive_loss, h]

/-- C9: with world_size = 1 the two logit matrices of ClipLoss.forward are
transposes of one another, both being logit_scale times the image-text
similarity matrix; and CLIPTextOnly.forward's loss is the mean of the
contrastive losses of its single similarity matrix and of its transpose. -/
theorem clipLoss_logits_transpose {n d : ℕ}
    (image_features text_features text_embeds0 text_embeds1 : Fin n → Fin d → ℝ)
    (logit_scale scale_exp : ℝ) :
    (∀ i j, (ClipLoss.forward image_features text_features logit_scale).2.2 i j
        = (ClipLoss.forward image_features text_features logit_scale).2.1 j i)
    ∧ (∀ i j, (ClipLoss.forward image_features text_features logit_scale).2.1 i j
        = logit_scale * ∑ k, image_features i k * text_features j k)
    ∧ (CLIPTextOnly.forward text_embeds0 text_embeds1 scale_exp).1
        = (contrastive_loss (CLIPTextOnly.forward text_embeds0 text_embeds1 scale_exp).2
          + contrastive_loss
              (fun i j => (CLIPTextOnly.forward text_embeds0 text_embeds1 scale_exp).2 j i)) / 2 := by
  refine ⟨fun i j => ?_, fun i j => rfl, rfl⟩
  simp only [ClipLoss.forward]
  exact congrArg _ (Finset.sum_congr rfl fun k _ => mul_comm _ _)

/-- C8: CLIPVisionMasked.forward_masked raises ValueError exactly when its
mask is None: for a None mask it returns the error without running the
model, and for any non-None mask it returns the model's output pair. -/
theorem forward_masked_error_iff_none {P M E₁ E₂ : Type} (model : P → M → E₁ × E₂)
    (pixel_values : P) (mask : Option M) :
    ((∃ e, CLIPVisionMasked.forward_masked model pixel_values mask = Except.error e)
        ↔ mask = none)
    ∧ CLIPVisionMasked.forward_masked model pixel_values none
        = Except.error "The mask is None"
    ∧ (∀ m, CLIPVisionMasked.forward_masked model pixel_values (some m)
        = Except.ok (model pixel_values m)) := by
  refine ⟨?_, rfl, fun m => rfl⟩
  cases mask <;> simp [CLIPVisionMasked.forward_masked]

/-- Cross entropy with ignore_index -100 over labels that select the
target class on selected positions and -100 elsewhere reduces to the mean
over the selected positions of the cross entropy at the target class. -/
theorem cross_entropy_ignore_select {ι : Type} [Fintype ι] {V : ℕ}
    (logits : ι → Fin V → ℝ) (tgt : ι → Fin V) (sel : ι → Prop) [DecidablePred sel] :
    cross_entropy_ignore logits (fun i => if sel i then ((tgt i).val : ℤ) else -100)
      = (∑ i ∈ Finset.univ.filter sel,
          (Real.log (∑ j, Real.exp (logits i j)) - logits i (tgt i)))
        / (Finset.univ.filter sel).card := by
  unfold cross_entropy_ignore
  have hfilter : (Finset.univ.filter
        (fun i => (if sel i then ((tgt i).val : ℤ) else -100) ≠ -100))
      = Finset.univ.filter sel := by
    apply Finset.filter_congr
    intro i _
    by_cases h : sel i
    · simp only [h, if_true, iff_true]
      omega
    · simp [h]
  rw [hfilter]
  congr 1
  apply Finset.sum_congr rfl
  intro i hi
  have hsel : sel i := (Finset.mem_filter.mp hi).2
  simp only [if_pos hsel]
  congr 1
  simp [Nat.cast_inj, Fin.val_inj, Finset.sum_ite_eq']

/-- C5: the masked-language-modeling loss of CLIPWeightedLOSS.forward is a
cross entropy over the 49409-token vocabulary whose label is the original
input token exactly where the masked id is the mask token 49408 and the
ignore value -100 elsewhere, so it equals the mean, over the positions
whose masked token is 49408, of the cross entropy of the decoder logits
against the original input token — every other position is excluded. -/
theorem forward_loss_mlm_only_masked {B S d : ℕ}
    (encoder_decoder : (Fin B → Fin 3 → Fin 224 → Fin 224 → ℝ) →
       (Fin B → Fin 14 → Fin 14 → ℝ) → (Fin B → Fin 3 → Fin 224 → Fin 224 → ℝ))
    (cliptext : (Fin B → Fin S → Fin 49409) → (Fin B → Fin S → ℕ) → TextOutput B S d)
    (clipvision_image_embeds : (Fin B → Fin 3 → Fin 224 → Fin 224 → ℝ) → Fin B → Fin d → ℝ)
    (textdecoder : (Fin B → Fin S → Fin 512 → ℝ) → Fin B → Fin S → Fin 49409 → ℝ)
    (logit_scale : ℝ)
    (mask : Fin B → Fin 14 → Fin 14 → ℝ)
    (input_ids : Fin B → Fin S → Fin 49409)
    (pixel_values : Fin B → Fin 3 → Fin 224 → Fin 224 → ℝ)
    (attention_mask : Fin B → Fin S → ℕ)
    (masked_ids : Option (Fin B → Fin S → Fin 49409)) :
    (CLIPWeightedLOSS.forward encoder_decoder cliptext clipvision_image_embeds textdecoder
        logit_scale mask input_ids pixel_values attention_mask masked_ids).loss_mlm
      = (∑ p ∈ Finset.univ.filter
            (fun p : Fin B × Fin S => ((masked_ids.getD input_ids) p.1 p.2).val = 49408),
          (Real.log (∑ j, Real.exp (textdecoder
                (cliptext (masked_ids.getD input_ids) attention_mask).last_hidden_state
                p.1 p.2 j))
            - textdecoder (cliptext (masked_ids.getD input_ids) attention_mask).last_hidden_state
                p.1 p.2 (input_ids p.1 p.2)))
        / (Finset.univ.filter
            (fun p : Fin B × Fin S => ((masked_ids.getD input_ids) p.1 p.2).val = 49408)).card := by
  have h := cross_entropy_ignore_select
      (fun p : Fin B × Fin S =>
        textdecoder (cliptext (masked_ids.getD input_ids) attention_mask).last_hidden_state p.1 p.2)
      (fun p : Fin B × Fin S => input_ids p.1 p.2)
      (fun p : Fin B × Fin S => ((masked_ids.getD input_ids) p.1 p.2).val = 49408)
  simp only [CLIPWeightedLOSS.forward, mlm_labels]
  exact h

/-- C4: the reconstruction loss of the masked-modeling loop and of
CLIPWeightedLOSS.forward is the elementwise L1 difference weighted by the
mask upsampled by a factor of 16 (model_patch_size) along each spatial
axis, summed, divided by the upsampled mask's sum plus 1e-5 and by 3; a
pixel whose (upsampled) mask entry is 0 contributes nothing to the sum. -/
theorem recon_loss_ignores_unmasked_pixels {B S d : ℕ}
    (encoder_decoder : (Fin B → Fin 3 → Fin 224 → Fin 224 → ℝ) →
       (Fin B → Fin 14 → Fin 14 → ℝ) → (Fin B → Fin 3 → Fin 224 → Fin 224 → ℝ))
    (cliptext : (Fin B → Fin S → Fin 49409) → (Fin B → Fin S → ℕ) → TextOutput B S d)
    (clipvision_image_embeds : (Fin B → Fin 3 → Fin 224 → Fin 224 → ℝ) → Fin B → Fin d → ℝ)
    (textdecoder : (Fin B → Fin S → Fin 512 → ℝ) → Fin B → Fin S → Fin 49409 → ℝ)
    (logit_scale : ℝ)
    (mask : Fin B → Fin 14 → Fin 14 → ℝ)
    (input_ids : Fin B → Fin S → Fin 49409)
    (pixel_values x_rec : Fin B → Fin 3 → Fin 224 → Fin 224 → ℝ)
    (attention_mask : Fin B → Fin S → ℕ)
    (masked_ids : Option (Fin B → Fin S → Fin 49409)) :
    recon_loss pixel_values x_rec mask
      = (∑ b, ∑ c, ∑ i, ∑ j,
            if upsample_mask mask b i j = 0 then 0
            else |pixel_values b c i j - x_rec b c i j| * upsample_mask mask b i j)
        / ((∑ b, ∑ i, ∑ j, upsample_mask mask b i j) + 1 / 100000) / 3
    ∧ (CLIPWeightedLOSS.forward encoder_decoder cliptext clipvision_image_embeds textdecoder
          logit_scale mask input_ids pixel_values attention_mask masked_ids).loss_recon
      = recon_loss pixel_values (encoder_decoder pixel_values mask) mask := by
  constructor
  · simp only [recon_loss]
    congr 1
    congr 1
    apply Finset.sum_congr rfl; intro b _
    apply Finset.sum_congr rfl; intro c _
    apply Finset.sum_congr rfl; intro i _
    apply Finset.sum_congr rfl; intro j _
    by_cases h : upsample_mask mask b i j = 0
    · simp [h]
    · simp [h]
  · rfl

/-- Evaluation lemma: unfolding the reconstruction loss on the all-ones
mask, the all-ones image and the all-zeros reconstruction. -/
lemma recon_loss_const_unfold :
    @recon_loss 1 (fun _ _ _ _ => 1) (fun _ _ _ _ => 0) (fun _ _ _ => 1)
    = ((∑ _b : Fin 1, ∑ _c : Fin 3, ∑ _i : Fin 224, ∑ _j : Fin 224, |(1:ℝ) - 0| * 1))
      / ((∑ _b : Fin 1, ∑ _i : Fin 224, ∑ _j : Fin 224, (1:ℝ)) + 1 / 100000) / 3 := rfl

/-- The numerator of the reconstruction loss on those constant inputs:
one unit of L1 error per pixel per channel. -/
lemma recon_sum_num_eval :
    (∑ _b : Fin 1, ∑ _c : Fin 3, ∑ _i : Fin 224, ∑ _j : Fin 224, |(1:ℝ) - 0| * 1)
      = 150528 := by
  norm_num [Finset.sum_const, Finset.card_univ]

/-- The mask-sum denominator of the reconstruction loss on the all-ones
mask: one unit per pixel. -/
lemma recon_sum_den_eval :
    (∑ _b : Fin 1, ∑ _i : Fin 224, ∑ _j : Fin 224, (1:ℝ)) = 50176 := by
  simp only [Finset.sum_const, Finset.card_univ, Fintype.card_fin, nsmul_eq_mul]
  norm_num

/-- On the all-ones image, the all-zeros reconstruction and the all-ones
mask, the reconstruction loss is a concrete positive rational. -/
lemma recon_loss_const_eval :
    @recon_loss 1 (fun _ _ _ _ => 1) (fun _ _ _ _ => 0) (fun _ _ _ => 1)
    = 150528 / (50176 + 1 / 100000) / 3 := by
  rw [recon_loss_const_unfold, recon_sum_num_eval, recon_sum_den_eval]

/-- C1 counterexample: at a concrete batch-1 input (all-ones image,
all-zeros reconstruction head, all-ones patch mask, zero text and vision
towers), the loss returned by CLIPWeightedLOSS.forward is NOT the
combination of clip_loss, loss_mlm and loss_recon it returns: the
reconstruction loss of this input is strictly positive while the returned
loss is clip_loss + loss_mlm only. -/
theorem forward_loss_omits_recon_counterexample :
    ¬ ((@CLIPWeightedLOSS.forward 1 1 1
          (fun _ _ => fun _ _ _ _ => 0)
          (fun _ _ => ⟨fun _ _ => 0, fun _ _ _ => 0⟩)
          (fun _ => fun _ _ => 0)
          (fun _ => fun _ _ _ => 0)
          0 (fun _ _ _ => 1) (fun _ _ => 0) (fun _ _ _ _ => 1) (fun _ _ => 1) none).loss
        = (@CLIPWeightedLOSS.forward 1 1 1
          (fun _ _ => fun _ _ _ _ => 0)
          (fun _ _ => ⟨fun _ _ => 0, fun _ _ _ => 0⟩)
          (fun _ => fun _ _ => 0)
          (fun _ => fun _ _ _ => 0)
          0 (fun _ _ _ => 1) (fun _ _ => 0) (fun _ _ _ _ => 1) (fun _ _ => 1) none).clip_loss
        + (@CLIPWeightedLOSS.forward 1 1 1
          (fun _ _ => fun _ _ _ _ => 0)
          (fun _ _ => ⟨fun _ _ => 0, fun _ _ _ => 0⟩)
          (fun _ => fun _ _ => 0)
          (fun _ => fun _ _ _ => 0)
          0 (fun _ _ _ => 1) (fun _ _ => 0) (fun _ _ _ _ => 1) (fun _ _ => 1) none).loss_mlm
        + (@CLIPWeightedLOSS.forward 1 1 1
          (fun _ _ => fun _ _ _ _ => 0)
          (fun _ _ => ⟨fun _ _ => 0, fun _ _ _ => 0⟩)
          (fun _ => fun _ _ => 0)
          (fun _ => fun _ _ _ => 0)
          0 (fun _ _ _ => 1) (fun _ _ => 0) (fun _ _ _ _ => 1) (fun _ _ => 1) none).loss_recon) := by
  intro h
  have h1 : (@CLIPWeightedLOSS.forward 1 1 1
          (fun _ _ => fun _ _ _ _ => 0)
          (fun _ _ => ⟨fun _ _ => 0, fun _ _ _ => 0⟩)
          (fun _ => fun _ _ => 0)
          (fun _ => fun _ _ _ => 0)
          0 (fun _ _ _ => 1) (fun _ _ => 0) (fun _ _ _ _ => 1) (fun _ _ => 1) none).loss
      = (@CLIPWeightedLOSS.forward 1 1 1
          (fun _ _ => fun _ _ _ _ => 0)
          (fun _ _ => ⟨fun _ _ => 0, fun _ _ _ => 0⟩)
          (fun _ => fun _ _ => 0)
          (fun _ => fun _ _ _ => 0)
          0 (fun _ _ _ => 1) (fun _ _ => 0) (fun _ _ _ _ => 1) (fun _ _ => 1) none).clip_loss
      + (@CLIPWeightedLOSS.forward 1 1 1
          (fun _ _ => fun _ _ _ _ => 0)
          (fun _ _ => ⟨fun _ _ => 0, fun _ _ _ => 0⟩)
          (fun _ => fun _ _ => 0)
          (fun _ => fun _ _ _ => 0)
          0 (fun _ _ _ => 1) (fun _ _ => 0) (fun _ _ _ _ => 1) (fun _ _ => 1) none).loss_mlm := rfl
  have h2 : (@CLIPWeightedLOSS.forward 1 1 1
          (fun _ _ => fun _ _ _ _ => 0)
          (fun _ _ => ⟨fun _ _ => 0, fun _ _ _ => 0⟩)
          (fun _ => fun _ _ => 0)
          (fun _ => fun _ _ _ => 0)
          0 (fun _ _ _ => 1) (fun _ _ => 0) (fun _ _ _ _ => 1) (fun _ _ => 1) none).loss_recon
      = @recon_loss 1 (fun _ _ _ _ => 1) (fun _ _ _ _ => 0) (fun _ _ _ => 1) := rfl
  rw [h1, h2, recon_loss_const_eval] at h
  have hz : (150528 : ℝ) / (50176 + 1 / 100000) / 3 = 0 := by linarith
  norm_num at hz

/-- C1 amended: the loss returned by CLIPWeightedLOSS.forward combines only
two of the three objectives: it equals clip_loss + loss_mlm; the
masked-patch reconstruction loss is computed and returned in the
loss_recon field but is not added into the loss field. -/
theorem forward_loss_eq_clip_add_mlm {B S d : ℕ}
    (encoder_decoder : (Fin B → Fin 3 → Fin 224 → Fin 224 → ℝ) →
       (Fin B → Fin 14 → Fin 14 → ℝ) → (Fin B → Fin 3 → Fin 224 → Fin 224 → ℝ))
    (cliptext : (Fin B → Fin S → Fin 49409) → (Fin B → Fin S → ℕ) → TextOutput B S d)
    (clipvision_image_embeds : (Fin B → Fin 3 → Fin 224 → Fin 224 → ℝ) → Fin B → Fin d → ℝ)
    (textdecoder : (Fin B → Fin S → Fin 512 → ℝ) → Fin B → Fin S → Fin 49409 → ℝ)
    (logit_scale : ℝ)
    (mask : Fin B → Fin 14 → Fin 14 → ℝ)
    (input_ids : Fin B → Fin S → Fin 49409)
    (pixel_values : Fin B → Fin 3 → Fin 224 → Fin 224 → ℝ)
    (attention_mask : Fin B → Fin S → ℕ)
    (masked_ids : Option (Fin B → Fin S → Fin 49409)) :
    (CLIPWeightedLOSS.forward encoder_decoder cliptext clipvision_image_embeds textdecoder
        logit_scale mask input_ids pixel_values attention_mask masked_ids).loss
      = (CLIPWeightedLOSS.forward encoder_decoder cliptext clipvision_image_embeds textdecoder
          logit_scale mask input_ids pixel_values attention_mask masked_ids).clip_loss
      + (CLIPWeightedLOSS.forward encoder_decoder cliptext clipvision_image_embeds textdecoder
          logit_scale mask input_ids pixel_values attention_mask masked_ids).loss_mlm
    ∧ (CLIPWeightedLOSS.forward encoder_decoder cliptext clipvision_image_embeds textdecoder
        logit_scale mask input_ids pixel_values attention_mask masked_ids).loss_recon
      = recon_loss pixel_values (encoder_decoder pixel_values mask) mask := ⟨rfl, rfl⟩

/-- C7: FlickrDataset.get_index_files returns the one-element tuple
task.train.jsonl / task.val.jsonl / task.test.jsonl for the splits
train / val / test, and raises RuntimeError for every other split. -/
theorem get_index_files_split_cases (split task : String) :
    (split = "train" → FlickrDataset.get_index_files split task
        = Except.ok [task ++ ".train.jsonl"])
    ∧ (split = "val" → FlickrDataset.get_index_files split task
        = Except.ok [task ++ ".val.jsonl"])
    ∧ (split = "test" → FlickrDataset.get_index_files split task
        = Except.ok [task ++ ".test.jsonl"])
    ∧ (split ≠ "train" → split ≠ "val" → split ≠ "test" →
        FlickrDataset.get_index_files split task
          = Except.error ("split " ++ split ++ " is not found!")) := by
  refine ⟨fun h => ?_, fun h => ?_, fun h => ?_, fun h1 h2 h3 => ?_⟩
  · subst h; rfl
  · subst h; rfl
  · subst h; rfl
  · simp [FlickrDataset.get_index_files, h1, h2, h3]

theorem get_index_files_split_cases_witness :
    FlickrDataset.get_index_files "train" "flickr30k"
      = Except.ok ["flickr30k.train.jsonl"] :=
  (get_index_files_split_cases "train" "flickr30k").1 rfl

/-- C6: on a non-empty token segment with max_len at least 2,
FlickrDataset.get_text_segment returns a token list of length exactly
max_len beginning with the bos token 49406, holding at most max_len - 2
content tokens followed by the eos token 49407 and then padding value 1,
along with a padding_mask of length max_len that is 0 on the real-token
positions and 1 on the padding positions; on a zero-token segment it
raises a RuntimeError. -/
theorem flickr_get_text_segment_spec (tokens : List ℕ) (max_len : ℕ)
    (h1 : tokens ≠ []) (h2 : 2 ≤ max_len) :
    FlickrDataset.get_text_segment tokens max_len
      = Except.ok
          ([49406] ++ tokens.take (max_len - 2) ++ [49407]
             ++ List.replicate (max_len - ((tokens.take (max_len - 2)).length + 2)) 1,
           List.replicate ((tokens.take (max_len - 2)).length + 2) 0
             ++ List.replicate (max_len - ((tokens.take (max_len - 2)).length + 2)) 1,
           (tokens.take (max_len - 2)).length + 2)
    ∧ ([49406] ++ tokens.take (max_len - 2) ++ [49407]
         ++ List.replicate (max_len - ((tokens.take (max_len - 2)).length + 2)) 1).length
        = max_len
    ∧ (List.replicate ((tokens.take (max_len - 2)).length + 2) 0
         ++ List.replicate (max_len - ((tokens.take (max_len - 2)).length + 2)) 1).length
        = max_len
    ∧ (tokens.take (max_len - 2)).length ≤ max_len - 2
    ∧ FlickrDataset.get_text_segment [] max_len
        = Except.error "The text segment should contains at least one tokens!" := by
  have hlen : ¬ tokens.length = 0 := by
    simpa [List.length_eq_zero] using h1
  have htake : (tokens.take (max_len - 2)).length ≤ max_len - 2 := by
    simp [List.length_take]
  have ht1 : (if tokens.length > max_len - 2 then tokens.take (max_len - 2) else tokens)
      = tokens.take (max_len - 2) := by
    split
    · rfl
    · next h => exact (List.take_of_length_le (by omega)).symm
  refine ⟨?_, ?_, ?_, htake, rfl⟩
  · simp only [FlickrDataset.get_text_segment, if_neg hlen, ht1, FlickrDataset.bos_token_id,
      FlickrDataset.eos_token_id]
    simp only [List.cons_append, List.nil_append, List.length_append, List.length_cons,
      List.length_nil, List.length_take]
  · simp [List.length_append, List.length_replicate]
    omega
  · simp [List.length_replicate]
    omega

/-- Witness for C6 at the concrete segment [5] with max_len 4. -/
theorem flickr_get_text_segment_spec_witness :
    (([5] : List ℕ) ≠ []) ∧ 2 ≤ 4
    ∧ FlickrDataset.get_text_segment [5] 4
        = Except.ok ([49406, 5, 49407, 1], [0, 0, 0, 1], 3) := by
  refine ⟨by decide, by decide, ?_⟩
  have h := (flickr_get_text_segment_spec [5] 4 (by decide) (by decide)).1
  simpa [List.replicate] using h

/-- The masking loop preserves the length of the token list. -/
lemma maskLoop_length (coins : ℕ → Bool) (k : ℕ) (l : List ℕ) :
    (CLIPMaskDataset.maskLoop coins k l).length = l.length := by
  induction l generalizing k with
  | nil => rfl
  | cons t rest ih =>
    unfold CLIPMaskDataset.maskLoop
    split
    · simpa using ih (k + 1)
    · split
      · rfl
      · simpa using ih (k + 1)

/-- A position holding the bos token, or lying at or after the first eos
token, is left untouched by the masking loop. -/
lemma maskLoop_getD_untouched (coins : ℕ → Bool) (l : List ℕ) (k i : ℕ)
    (h : l.getD i 0 = CLIPMaskDataset.bos_token_id
      ∨ ∃ j, j ≤ i ∧ l.getD j 0 = CLIPMaskDataset.eos_token_id) :
    (CLIPMaskDataset.maskLoop coins k l).getD i 0 = l.getD i 0 := by
  induction l generalizing k i with
  | nil => simp [CLIPMaskDataset.maskLoop]
  | cons t rest ih =>
    unfold CLIPMaskDataset.maskLoop
    by_cases hb : t = CLIPMaskDataset.bos_token_id
    · rw [if_pos hb]
      cases i with
      | zero => simp
      | succ i =>
        simp only [List.getD_cons_succ]
        apply ih
        rcases h with h | ⟨j, hj, hje⟩
        · exact Or.inl (by simpa using h)
        · cases j with
          | zero =>
            exfalso
            simp only [List.getD_cons_zero] at hje
            rw [hb] at hje
            exact absurd hje (by decide)
          | succ j =>
            exact Or.inr ⟨j, by omega, by simpa using hje⟩
    · rw [if_neg hb]
      by_cases he : t = CLIPMaskDataset.eos_token_id
      · rw [if_pos he]
      · rw [if_neg he]
        cases i with
        | zero =>
          exfalso
          rcases h with h | ⟨j, hj, hje⟩
          · exact hb (by simpa using h)
          · have hj0 : j = 0 := by omega
            subst hj0
            exact he (by simpa using hje)
        | succ i =>
          simp only [List.getD_cons_succ]
          apply ih
          rcases h with h | ⟨j, hj, hje⟩
          · exact Or.inl (by simpa using h)
          · cases j with
            | zero => exact absurd (by simpa using hje) he
            | succ j => exact Or.inr ⟨j, by omega, by simpa using hje⟩

/-- A position the masking loop changes now holds the mask token, did not
hold the bos token, and lies strictly before every eos token. -/
lemma maskLoop_getD_changed (coins : ℕ → Bool) (l : List ℕ) (k i : ℕ)
    (h : (CLIPMaskDataset.maskLoop coins k l).getD i 0 ≠ l.getD i 0) :
    (CLIPMaskDataset.maskLoop coins k l).getD i 0 = CLIPMaskDataset.mask_token_id
    ∧ l.getD i 0 ≠ CLIPMaskDataset.bos_token_id
    ∧ ∀ j, j ≤ i → l.getD j 0 ≠ CLIPMaskDataset.eos_token_id := by
  induction l generalizing k i with
  | nil => simp [CLIPMaskDataset.maskLoop] at h
  | cons t rest ih =>
    unfold CLIPMaskDataset.maskLoop at h ⊢
    by_cases hb : t = CLIPMaskDataset.bos_token_id
    · rw [if_pos hb] at h ⊢
      cases i with
      | zero => simp at h
      | succ i =>
        simp only [List.getD_cons_succ] at h ⊢
        obtain ⟨hm, hnb, hne⟩ := ih (k + 1) i h
        refine ⟨hm, hnb, fun j hj => ?_⟩
        cases j with
        | zero =>
          simp only [List.getD_cons_zero]
          rw [hb]
          decide
        | succ j =>
          simp only [List.getD_cons_succ]
          exact hne j (by omega)
    · rw [if_neg hb] at h ⊢
      by_cases he : t = CLIPMaskDataset.eos_token_id
      · rw [if_pos he] at h
        exact absurd rfl h
      · rw [if_neg he] at h ⊢
        cases i with
        | zero =>
          simp only [List.getD_cons_zero] at h ⊢
          by_cases hc : coins k
          · rw [if_pos hc] at h ⊢
            refine ⟨rfl, hb, fun j hj => ?_⟩
            have hj0 : j = 0 := by omega
            subst hj0
            simpa using he
          · rw [if_neg hc] at h
            exact absurd rfl h
        | succ i =>
          simp only [List.getD_cons_succ] at h ⊢
          obtain ⟨hm, hnb, hne⟩ := ih (k + 1) i h
          refine ⟨hm, hnb, fun j hj => ?_⟩
          cases j with
          | zero => simpa using he
          | succ j =>
            simp only [List.getD_cons_succ]
            exact hne j (by omega)

/-- C10: CLIPMaskDataset._get_text_segment returns full_tokens, an
attention mask and masked_tokens all of length exactly max_len;
masked_tokens differs from full_tokens only at positions holding neither
the bos token 49406 nor any token at or after the first eos token 49407,
any differing position holds the mask token 49408, and the bos token and
every token from the first eos onward are never masked. -/
theorem clipmask_get_text_segment_masks_content_only (tokens : List ℕ) (coins : ℕ → Bool)
    (max_len : ℕ) (h1 : tokens ≠ []) (h2 : 1 ≤ max_len) :
    ∃ full_tokens masked_tokens attn_mask,
      CLIPMaskDataset.get_text_segment tokens coins max_len
          = Except.ok (full_tokens, masked_tokens, attn_mask)
      ∧ full_tokens.length = max_len
      ∧ attn_mask.length = max_len
      ∧ masked_tokens.length = max_len
      ∧ (∀ i, masked_tokens.getD i 0 ≠ full_tokens.getD i 0 →
          (masked_tokens.getD i 0 = 49408 ∧ full_tokens.getD i 0 ≠ 49406
            ∧ ∀ j, j ≤ i → full_tokens.getD j 0 ≠ 49407))
      ∧ (∀ i, (full_tokens.getD i 0 = 49406 ∨ ∃ j, j ≤ i ∧ full_tokens.getD j 0 = 49407) →
          masked_tokens.getD i 0 = full_tokens.getD i 0) := by
  have hlen : ¬ tokens.length = 0 := by simpa [List.length_eq_zero] using h1
  set t1 := (if tokens.length > max_len - 1 then tokens.take (max_len - 1) else tokens)
    with ht1def
  have hT : t1.length ≤ max_len - 1 := by
    rw [ht1def]
    split
    · simp [List.length_take]
    · next hgt => omega
  set full := t1 ++ List.replicate (max_len - t1.length) CLIPMaskDataset.eos_token_id
    with hfulldef
  refine ⟨full, CLIPMaskDataset.maskLoop coins 0 full,
    List.replicate t1.length 1 ++ List.replicate (max_len - t1.length) 0,
    ?_, ?_, ?_, ?_, ?_, ?_⟩
  · unfold CLIPMaskDataset.get_text_segment
    rw [if_neg hlen]
  · rw [hfulldef]
    simp only [List.length_append, List.length_replicate]
    omega
  · simp only [List.length_append, List.length_replicate]
    omega
  · rw [maskLoop_length, hfulldef]
    simp only [List.length_append, List.length_replicate]
    omega
  · intro i hne
    have h := maskLoop_getD_changed coins full 0 i hne
    simpa [CLIPMaskDataset.mask_token_id, CLIPMaskDataset.bos_token_id,
      CLIPMaskDataset.eos_token_id] using h
  · intro i h
    apply maskLoop_getD_untouched
    simpa [CLIPMaskDataset.bos_token_id, CLIPMaskDataset.eos_token_id] using h

/-- Witness for C10 at the concrete token list [3] with max_len 2 and
always-firing masking draws. -/
theorem clipmask_get_text_segment_masks_content_only_witness :
    (([3] : List ℕ) ≠ []) ∧ 1 ≤ 2
    ∧ ∃ full_tokens masked_tokens attn_mask,
      CLIPMaskDataset.get_text_segment [3] (fun _ => true) 2
          = Except.ok (full_tokens, masked_tokens, attn_mask)
      ∧ full_tokens.length = 2
      ∧ attn_mask.length = 2
      ∧ masked_tokens.length = 2
      ∧ (∀ i, masked_tokens.getD i 0 ≠ full_tokens.getD i 0 →
          (masked_tokens.getD i 0 = 49408 ∧ full_tokens.getD i 0 ≠ 49406
            ∧ ∀ j, j ≤ i → full_tokens.getD j 0 ≠ 49407))
      ∧ (∀ i, (full_tokens.getD i 0 = 49406 ∨ ∃ j, j ≤ i ∧ full_tokens.getD j 0 = 49407) →
          masked_tokens.getD i 0 = full_tokens.getD i 0) :=
  ⟨by decide, by decide,
    clipmask_get_text_segment_masks_content_only [3] (fun _ => true) 2 (by decide) (by decide)⟩
